import Mathlib

/-!
Shallow embedding of the HRMS recruitment module (recruitment logic,
db id counters, and the bulk e-mail partition logic) and proofs of the
claims of the spec about it.

Modelling conventions:
* The JSON document store `db.data` is the `Store` structure: per-collection
  record lists plus the `_id` counter map (one `Nat` field per collection used
  here).  `db.nextId(t)` is `(counter t) + 1` with the counter advanced, as in
  `db.data._id[table] = (db.data._id[table] || 0) + 1`.
* JavaScript in-place mutation with exceptions becomes explicit state passing:
  every mutating operation returns `Store × Except String α`; an error carries
  the store as it stood when the throw happened (all operations here validate
  before mutating, which is what the atomicity claim is about).
* JS strings are `String` with falsy = `""`; optional string fields are
  `Option String` (falsy = `none` or `some ""`); JS numbers in these code
  paths are `Nat` for ids/counters and `Int` for budgets/ratings, falsy = 0.
* Timestamps (`new Date().toISOString()`) and interview uuids (`uuidv4()`)
  are opaque strings supplied as parameters (`now`, `uuid`).
* Error messages are the wrapped messages the module throws
  (`Failed to <op>: <inner message>`).
-/

namespace HRMS

/-- JS truthiness of an optional string field: `undefined`/`null` and `""` are falsy. -/
def optStrTruthy : Option String → Bool
  | none => false
  | some s => s != ""

/-- Replace the first element satisfying `q` by its image under `f` (JS
`Array.prototype.find` followed by in-place mutation of the found object). -/
def updateFirst (q : α → Bool) (f : α → α) : List α → List α
  | [] => []
  | x :: xs => if q x then f x :: xs else x :: updateFirst q f xs

/-- A note entry pushed by `updateCandidateStatus` (`{ text, timestamp }`). -/
structure Note where
  text : String
  timestamp : String
deriving DecidableEq, Repr

/-- An interview record built by `addInterview`. -/
structure Interview where
  id : String
  date : String
  interviewer : String
  rating : Int
  feedback : Option String
  createdAt : String
deriving DecidableEq, Repr

/-- A candidate record as built by `applyForJob`. -/
structure Candidate where
  id : Nat
  jobPostingId : Nat
  candidateName : String
  email : String
  phone : Option String
  resume : Option String
  experience : Option String
  skills : List String
  linkedinProfile : Option String
  status : String
  appliedAt : String
  ratings : List Int
  notes : List Note
  interviews : List Interview
  rejectionReason : Option String
  updatedAt : Option String
deriving DecidableEq, Repr

/-- A job requirement record as built by `createJobRequirement`. -/
structure JobRequirement where
  id : Nat
  title : String
  department : String
  budget : Int
  description : Option String
  positions : Int
  status : String
  createdBy : Option Nat
  createdAt : String
  approvedBy : Option Nat
  approvedAt : Option String
  filledPositions : Nat
  rejectionReason : Option String
deriving DecidableEq, Repr

/-- A job posting record as built by `createJobPosting`. -/
structure JobPosting where
  id : Nat
  requirementId : Nat
  title : String
  description : String
  department : String
  location : String
  salaryRange : Option String
  status : String
  applicationDeadline : Option String
  createdBy : Option Nat
  createdAt : String
  updatedAt : String
  applicantCount : Nat
deriving DecidableEq, Repr

/-- A status-change audit row appended by `logStatusChange`. -/
structure StatusChangeLog where
  id : Nat
  candidateId : Nat
  oldStatus : String
  newStatus : String
  timestamp : String
deriving DecidableEq, Repr

/-- The document store `db.data`: the collections the recruitment module
touches, plus the `_id` counter for each (`db.nextId`). -/
structure Store where
  jobRequirements : List JobRequirement
  jobPostings : List JobPosting
  candidates : List Candidate
  statusChangeLogs : List StatusChangeLog
  idJobRequirements : Nat
  idJobPostings : Nat
  idCandidates : Nat
  idStatusChangeLogs : Nat
deriving DecidableEq, Repr

/-- The empty store (fresh `db.data` with all counters 0). -/
def store0 : Store := ⟨[], [], [], [], 0, 0, 0, 0⟩

/-- Lookup `db.data.jobPostings?.find(p => p.id === id)`. -/
def findPosting (s : Store) (id : Nat) : Option JobPosting :=
  s.jobPostings.find? (fun p => p.id == id)

/-- Lookup `db.data.candidates?.find(c => c.id === id)`. -/
def findCandidate (s : Store) (id : Nat) : Option Candidate :=
  s.candidates.find? (fun c => c.id == id)

/-- Lookup `db.data.jobRequirements?.find(r => r.id === id)`. -/
def findRequirement (s : Store) (id : Nat) : Option JobRequirement :=
  s.jobRequirements.find? (fun r => r.id == id)

/-- Input object of `applyForJob` (destructured request body).  `skills` is
normalized by the code via `Array.isArray(skills) ? skills : [skills]`;
we model it as the already-supplied list or scalar. -/
structure ApplyData where
  jobPostingId : Nat
  candidateName : String
  email : String
  phone : Option String
  resume : Option String
  experience : Option String
  skills : Sum String (List String)
  linkedinProfile : Option String
deriving DecidableEq, Repr

/-- Normalization `Array.isArray(skills) ? skills : [skills]`. -/
def normalizeSkills : Sum String (List String) → List String
  | Sum.inl s => [s]
  | Sum.inr l => l

/-- The function `applyForJob(data)` of the recruitment module: validates required
fields, resolves the posting, rejects duplicate `(jobPostingId, email)`
pairs, then appends the candidate, increments the `applicantCount` of the posting, and flushes — all mutations after all checks. -/
def applyForJob (d : ApplyData) (now : String) (s : Store) :
    Store × Except String Candidate :=
  if d.jobPostingId = 0 ∨ d.candidateName = "" ∨ d.email = "" then
    (s, .error "Failed to apply for job: Job posting ID, candidate name, and email are required")
  else
    match findPosting s d.jobPostingId with
    | none => (s, .error "Failed to apply for job: Job posting not found")
    | some _ =>
      match s.candidates.find? (fun c => c.jobPostingId == d.jobPostingId && c.email == d.email) with
      | some _ => (s, .error "Failed to apply for job: You have already applied for this position")
      | none =>
        let c : Candidate :=
          { id := s.idCandidates + 1
            jobPostingId := d.jobPostingId
            candidateName := d.candidateName
            email := d.email
            phone := d.phone
            resume := d.resume
            experience := d.experience
            skills := normalizeSkills d.skills
            linkedinProfile := d.linkedinProfile
            status := "applied"
            appliedAt := now
            ratings := []
            notes := []
            interviews := []
            rejectionReason := none
            updatedAt := none }
        ({ s with
            idCandidates := s.idCandidates + 1
            candidates := s.candidates ++ [c]
            jobPostings := updateFirst (fun p => p.id == d.jobPostingId)
              (fun p => { p with applicantCount := p.applicantCount + 1 }) s.jobPostings },
          .ok c)

/-- Input object of `createJobRequirement`.  `positions = 1` is a
destructuring default, so the field is optional here. -/
structure ReqData where
  title : String
  department : String
  budget : Int
  description : Option String
  positions : Option Int
  createdBy : Option Nat
deriving DecidableEq, Repr

/-- The function `createJobRequirement(data)`: requires truthy title, department and
budget (`!budget` is true for 0), budget ≥ 0, positions ≥ 1; then mints a
fresh id and appends a `pending` requirement. -/
def createJobRequirement (d : ReqData) (now : String) (s : Store) :
    Store × Except String JobRequirement :=
  if d.title = "" ∨ d.department = "" ∨ d.budget = 0 then
    (s, .error "Failed to create job requirement: Title, department, and budget are required")
  else if d.budget < 0 then
    (s, .error "Failed to create job requirement: Budget must be positive")
  else if d.positions.getD 1 < 1 then
    (s, .error "Failed to create job requirement: Positions must be at least 1")
  else
    let r : JobRequirement :=
      { id := s.idJobRequirements + 1
        title := d.title
        department := d.department
        budget := d.budget
        description := d.description
        positions := d.positions.getD 1
        status := "pending"
        createdBy := d.createdBy
        createdAt := now
        approvedBy := none
        approvedAt := none
        filledPositions := 0
        rejectionReason := none }
    ({ s with
        idJobRequirements := s.idJobRequirements + 1
        jobRequirements := s.jobRequirements ++ [r] },
      .ok r)

/-- Input object of `createJobPosting`. -/
structure PostData where
  requirementId : Nat
  title : String
  description : String
  location : String
  salaryRange : Option String
  applicationDeadline : Option String
  createdBy : Option Nat
deriving DecidableEq, Repr

/-- The function `createJobPosting(data)`: resolves the requirement (throws not-found if
absent), requires status to equal approved, requires truthy title,
description and location, then appends an `open` posting with
`applicantCount = 0` inheriting the department of the requirement. -/
def createJobPosting (d : PostData) (now : String) (s : Store) :
    Store × Except String JobPosting :=
  match findRequirement s d.requirementId with
  | none => (s, .error "Failed to create job posting: Job requirement not found")
  | some req =>
    if req.status != "approved" then
      (s, .error "Failed to create job posting: Can only create posting from approved requirement")
    else if d.title = "" ∨ d.description = "" ∨ d.location = "" then
      (s, .error "Failed to create job posting: Title, description, and location are required")
    else
      let p : JobPosting :=
        { id := s.idJobPostings + 1
          requirementId := d.requirementId
          title := d.title
          description := d.description
          department := req.department
          location := d.location
          salaryRange := d.salaryRange
          status := "open"
          applicationDeadline := d.applicationDeadline
          createdBy := d.createdBy
          createdAt := now
          updatedAt := now
          applicantCount := 0 }
      ({ s with
          idJobPostings := s.idJobPostings + 1
          jobPostings := s.jobPostings ++ [p] },
        .ok p)

/-- The function `updateCandidateStatus(candidateId, newStatus, notes)` with notes defaulting to the empty string: validates
the status, resolves the candidate, sets status/updatedAt, appends a note
when `notes` is truthy, sets `rejectionReason` when rejecting and
`!candidate.rejectionReason`, then appends a `StatusChangeLog` row
(`logStatusChange`, which mints the log id). -/
def updateCandidateStatus (cid : Nat) (newStatus : String) (notes : String)
    (now : String) (s : Store) : Store × Except String Candidate :=
  if ¬ (["applied", "shortlisted", "interviewed", "selected", "rejected"].contains newStatus) then
    (s, .error "Failed to update candidate status: Invalid status. Must be one of: applied, shortlisted, interviewed, selected, rejected")
  else
    match findCandidate s cid with
    | none => (s, .error "Failed to update candidate status: Candidate not found")
    | some c0 =>
      let c1 : Candidate := { c0 with status := newStatus, updatedAt := some now }
      let c2 : Candidate :=
        if notes != "" then { c1 with notes := c1.notes ++ [⟨notes, now⟩] } else c1
      let c3 : Candidate :=
        if newStatus == "rejected" && !(optStrTruthy c2.rejectionReason) then
          { c2 with rejectionReason := some (if notes != "" then notes else "No reason provided") }
        else c2
      let log : StatusChangeLog :=
        ⟨s.idStatusChangeLogs + 1, cid, c0.status, newStatus, now⟩
      ({ s with
          candidates := updateFirst (fun c => c.id == cid) (fun _ => c3) s.candidates
          statusChangeLogs := s.statusChangeLogs ++ [log]
          idStatusChangeLogs := s.idStatusChangeLogs + 1 },
        .ok c3)

/-- Input object of `addInterview` (`{ date, interviewer, rating, feedback }`);
`rating` is optional (may be `undefined`). -/
structure InterviewData where
  date : String
  interviewer : String
  rating : Option Int
  feedback : Option String
deriving DecidableEq, Repr

/-- The check `rating && (rating < 1 || rating > 5)` — only a truthy (present and
nonzero) rating is range-checked. -/
def ratingInvalid : Option Int → Bool
  | none => false
  | some r => r != 0 && (r < 1 || r > 5)

/-- The fallback `rating || 0` — the stored rating falls back to 0 when `rating` is falsy. -/
def jsRatingOrZero : Option Int → Int
  | none => 0
  | some r => if r != 0 then r else 0

/-- The function `addInterview(candidateId, interviewData)`: requires date and
interviewer, range-checks a truthy rating, resolves the candidate, appends
the interview (id from `uuidv4()`), and auto-advances a `shortlisted`
candidate to `interviewed`. -/
def addInterview (cid : Nat) (d : InterviewData) (uuid : String) (now : String)
    (s : Store) : Store × Except String Candidate :=
  if d.date = "" ∨ d.interviewer = "" then
    (s, .error "Failed to add interview: Interview date and interviewer are required")
  else if ratingInvalid d.rating then
    (s, .error "Failed to add interview: Rating must be between 1 and 5")
  else
    match findCandidate s cid with
    | none => (s, .error "Failed to add interview: Candidate not found")
    | some c0 =>
      let itv : Interview := ⟨uuid, d.date, d.interviewer, jsRatingOrZero d.rating, d.feedback, now⟩
      let c1 : Candidate := { c0 with interviews := c0.interviews ++ [itv] }
      let c2 : Candidate :=
        if c1.status == "shortlisted" then { c1 with status := "interviewed" } else c1
      ({ s with candidates := updateFirst (fun c => c.id == cid) (fun _ => c2) s.candidates },
        .ok c2)

/-- The function `approveJobRequirement(requirementId, approvedBy)`:
resolves the requirement (not-found error otherwise) and overwrites its
status, approver and approval timestamp in place. -/
def approveJobRequirement (rid approvedBy : Nat) (now : String) (s : Store) :
    Store × Except String JobRequirement :=
  match findRequirement s rid with
  | none => (s, .error "Failed to approve job requirement: Job requirement not found")
  | some r0 =>
    let r1 : JobRequirement :=
      { r0 with status := "approved", approvedBy := some approvedBy, approvedAt := some now }
    ({ s with
        jobRequirements := updateFirst (fun r => r.id == rid) (fun _ => r1) s.jobRequirements },
      .ok r1)

/-- The function `rejectJobRequirement(requirementId, reason)`: resolves the
requirement and overwrites its status and rejection reason in place. -/
def rejectJobRequirement (rid : Nat) (reason : String) (s : Store) :
    Store × Except String JobRequirement :=
  match findRequirement s rid with
  | none => (s, .error "Failed to reject job requirement: Job requirement not found")
  | some r0 =>
    let r1 : JobRequirement := { r0 with status := "rejected", rejectionReason := some reason }
    ({ s with
        jobRequirements := updateFirst (fun r => r.id == rid) (fun _ => r1) s.jobRequirements },
      .ok r1)

/-- The function `updateJobPostingStatus(postingId, status)`: validates the
status, resolves the posting, and overwrites its status and updatedAt in
place. -/
def updateJobPostingStatus (pid : Nat) (status now : String) (s : Store) :
    Store × Except String JobPosting :=
  if ¬ (["open", "closed", "filled"].contains status) then
    (s, .error "Failed to update job posting: Invalid status. Must be one of: open, closed, filled")
  else
    match findPosting s pid with
    | none => (s, .error "Failed to update job posting: Job posting not found")
    | some p0 =>
      let p1 : JobPosting := { p0 with status := status, updatedAt := now }
      ({ s with jobPostings := updateFirst (fun p => p.id == pid) (fun _ => p1) s.jobPostings },
        .ok p1)

/-- One call to a mutating operation of the recruitment module, with its
inputs. -/
inductive Op where
  | createRequirement : ReqData → String → Op
  | approveRequirement : Nat → Nat → String → Op
  | rejectRequirement : Nat → String → Op
  | createPosting : PostData → String → Op
  | updatePostingStatus : Nat → String → String → Op
  | applyJob : ApplyData → String → Op
  | updateStatus : Nat → String → String → String → Op
  | interview : Nat → InterviewData → String → String → Op
deriving DecidableEq, Repr

/-- Run one operation against the store, keeping the resulting store
whether the call succeeds or throws (a throw leaves the store as it was,
since every operation validates before mutating). -/
def runOp (s : Store) : Op → Store
  | .createRequirement d now => (createJobRequirement d now s).1
  | .approveRequirement rid aid now => (approveJobRequirement rid aid now s).1
  | .rejectRequirement rid reason => (rejectJobRequirement rid reason s).1
  | .createPosting d now => (createJobPosting d now s).1
  | .updatePostingStatus pid st now => (updateJobPostingStatus pid st now s).1
  | .applyJob d now => (applyForJob d now s).1
  | .updateStatus cid st notes now => (updateCandidateStatus cid st notes now s).1
  | .interview cid d uuid now => (addInterview cid d uuid now s).1

/-- Run a sequence of operations left to right, threading the store. -/
def runOps (s : Store) (ops : List Op) : Store := ops.foldl runOp s

/-- Run `applyForJob` once per element of `ds`, threading the store; `none`
when any call fails ("N successful apply calls"). -/
def applyMany (now : String) : List ApplyData → Store → Option Store
  | [], s => some s
  | d :: ds, s =>
    match applyForJob d now s with
    | (s', .ok _) => applyMany now ds s'
    | (_, .error _) => none

/-- Number of candidate records in the store referencing posting `pid`. -/
def countRef (s : Store) (pid : Nat) : Nat :=
  (s.candidates.filter (fun c => c.jobPostingId == pid)).length

/-- The inductive store invariant: the applicantCount of every posting
record equals the number of candidate records referencing it; every
posting id is within the issued counter; posting ids are pairwise
distinct; and every candidate references an existing posting. -/
def StoreInv (s : Store) : Prop :=
  (∀ p ∈ s.jobPostings, p.applicantCount = countRef s p.id) ∧
  (∀ p ∈ s.jobPostings, p.id ≤ s.idJobPostings) ∧
  List.Pairwise (fun p q : JobPosting => p.id ≠ q.id) s.jobPostings ∧
  (∀ c ∈ s.candidates, ∃ p ∈ s.jobPostings, c.jobPostingId = p.id)

/-- The JS value of the `conversionRate` field: the number `0` when there
are no candidates, otherwise the string produced by `toFixed(2)`, carried
here as the exact rounded rational it denotes. -/
inductive ConvRate where
  | zero : ConvRate
  | fixed : ℚ → ConvRate
deriving DecidableEq, Repr

/-- Model of `x.toFixed(2)`: round to the nearest hundredth (exact for the
decimal values this module produces). -/
def jsToFixed2 (q : ℚ) : ℚ := (round (q * 100) : ℚ) / 100

/-- The candidate-side aggregates of `getRecruitmentStats` (the
requirement/posting breakdowns are analogous filters and are omitted from
the claims; `conversionRate` is the field the claims are about). -/
structure RecruitmentStats where
  total : Nat
  applied : Nat
  shortlisted : Nat
  interviewed : Nat
  selected : Nat
  rejected : Nat
  conversionRate : ConvRate
deriving DecidableEq, Repr

/-- The candidate metrics of `getRecruitmentStats()`:
`conversionRate = candidates.length > 0 ? ((selected / total) * 100).toFixed(2) : 0`. -/
def getRecruitmentStats (s : Store) : RecruitmentStats :=
  let candidates := s.candidates
  { total := candidates.length
    applied := (candidates.filter (fun c => c.status == "applied")).length
    shortlisted := (candidates.filter (fun c => c.status == "shortlisted")).length
    interviewed := (candidates.filter (fun c => c.status == "interviewed")).length
    selected := (candidates.filter (fun c => c.status == "selected")).length
    rejected := (candidates.filter (fun c => c.status == "rejected")).length
    conversionRate :=
      if candidates.length > 0 then
        ConvRate.fixed (jsToFixed2
          (((candidates.filter (fun c => c.status == "selected")).length : ℚ)
            / (candidates.length : ℚ) * 100))
      else ConvRate.zero }

/-- The words of the spec for the conversion rate: (selected candidates / total
candidates) × 100, rounded to 2 decimal places; defined as 0 when there are
no candidates. -/
def specConversionRate (candidates : List Candidate) : ConvRate :=
  if candidates = [] then ConvRate.zero
  else ConvRate.fixed (jsToFixed2
    (((candidates.filter (fun c => c.status == "selected")).length : ℚ) * 100
      / (candidates.length : ℚ)))

/-- Result of `sendBulkStatusUpdate`: `{ success: [...], failed: [...] }`,
each failed entry carrying `(candidateId, reason)`. -/
structure BulkResult where
  success : List Nat
  failed : List (Nat × String)
deriving DecidableEq, Repr

/-- The message of the TypeError Node raises at
`candidate.jobPostingId` when `candidate` is `undefined` (missing
candidate), caught by the per-item `try/catch`. -/
def jsUndefinedFieldMsg : String :=
  "Cannot read properties of undefined (reading jobPostingId)"

/-- One iteration of the `sendBulkStatusUpdate` loop body over the
accumulated results.  The mail transport is the abstract collaborator of section 6 of the spec:
a dispatched send is modelled as accepted, so a resolved candidate+posting
with a supported status lands in `success`.  A missing candidate throws at
`candidate.jobPostingId` before the `!candidate || !posting` check runs, so
its reason is the caught TypeError message, not the not-found message. -/
def bulkStep (s : Store) (newStatus : String) (acc : BulkResult) (cid : Nat) : BulkResult :=
  match findCandidate s cid with
  | none => { acc with failed := acc.failed ++ [(cid, jsUndefinedFieldMsg)] }
  | some c =>
    match findPosting s c.jobPostingId with
    | none => { acc with failed := acc.failed ++ [(cid, "Candidate or posting not found")] }
    | some _ =>
      if newStatus == "shortlisted" || newStatus == "selected" || newStatus == "rejected" then
        { acc with success := acc.success ++ [cid] }
      else
        { acc with failed := acc.failed ++ [(cid, "Unsupported status: " ++ newStatus)] }

/-- The function `sendBulkStatusUpdate(candidateIds, newStatus)` of the email service:
iterates the ids, each item independently caught, returning the
success/failed partition. -/
def sendBulkStatusUpdate (s : Store) (cids : List Nat) (newStatus : String) : BulkResult :=
  cids.foldl (bulkStep s newStatus) ⟨[], []⟩

/-- Per-item success predicate of the bulk loop: the candidate resolves,
its posting resolves, and the status is one of the three dispatchable ones. -/
def bulkItemOk (s : Store) (newStatus : String) (cid : Nat) : Bool :=
  match findCandidate s cid with
  | none => false
  | some c =>
    match findPosting s c.jobPostingId with
    | none => false
    | some _ => newStatus == "shortlisted" || newStatus == "selected" || newStatus == "rejected"

/-- Per-item failure reason of the bulk loop (meaningful when `bulkItemOk`
is false). -/
def bulkItemReason (s : Store) (newStatus : String) (cid : Nat) : String :=
  match findCandidate s cid with
  | none => jsUndefinedFieldMsg
  | some c =>
    match findPosting s c.jobPostingId with
    | none => "Candidate or posting not found"
    | some _ => "Unsupported status: " ++ newStatus

/-! ### Sample records used by witnesses and counterexamples -/

/-- A candidate record with the given id, posting reference, email, status
and rejection reason, other fields fixed. -/
def mkCand (id pid : Nat) (email status : String) (rr : Option String) : Candidate :=
  ⟨id, pid, "Name", email, none, none, none, [], none, status, "t0", [], [], [], rr, none⟩

/-- A posting record with the given id, requirement reference and applicant
count, other fields fixed. -/
def mkPost (id rid cnt : Nat) : JobPosting :=
  ⟨id, rid, "T", "D", "Eng", "L", none, "open", none, none, "t0", "t0", cnt⟩

/-- A requirement record with the given id and status, other fields fixed. -/
def mkReq (id : Nat) (st : String) : JobRequirement :=
  ⟨id, "T", "Eng", 100, none, 1, st, none, "t0", none, none, 0, none⟩

/-! ### Helper lemmas -/

/-- Updating the first element satisfying `q` commutes with `find? q` when
`f` preserves `q` on that element. -/
theorem updateFirst_find? (q : α → Bool) (f : α → α)
    (hq : ∀ a, q a = true → q (f a) = true) :
    ∀ l : List α, (updateFirst q f l).find? q = (l.find? q).map f := by
  intro l
  induction l with
  | nil => rfl
  | cons x xs ih =>
    unfold updateFirst
    by_cases hx : q x = true
    · rw [if_pos hx, List.find?_cons_of_pos xs (hq x hx), List.find?_cons_of_pos xs hx]
      rfl
    · rw [if_neg hx]
      rw [List.find?_cons_of_neg (updateFirst q f xs) (by simpa using hx),
        List.find?_cons_of_neg xs (by simpa using hx), ih]

/-- Structure of a successful `applyForJob`: the new candidate references
the requested posting, is appended to the candidate list, and the posting
list has the first posting with that id bumped by one — all in the same
returned store. -/
theorem applyForJob_ok_parts (d : ApplyData) (now : String) (s s' : Store) (c : Candidate)
    (h : applyForJob d now s = (s', Except.ok c)) :
    c.jobPostingId = d.jobPostingId ∧
    s'.candidates = s.candidates ++ [c] ∧
    s'.jobPostings = updateFirst (fun p => p.id == d.jobPostingId)
      (fun p => { p with applicantCount := p.applicantCount + 1 }) s.jobPostings ∧
    s'.idJobPostings = s.idJobPostings ∧
    ∃ p0, findPosting s d.jobPostingId = some p0 := by
  unfold applyForJob at h
  split at h
  · simp at h
  · cases hp : findPosting s d.jobPostingId with
    | none =>
      rw [hp] at h
      simp at h
    | some p0 =>
      rw [hp] at h
      cases hdup : s.candidates.find?
          (fun c => c.jobPostingId == d.jobPostingId && c.email == d.email) with
      | some c0 =>
        rw [hdup] at h
        simp at h
      | none =>
        rw [hdup] at h
        dsimp only at h
        simp only [Prod.mk.injEq, Except.ok.injEq] at h
        obtain ⟨hs, hc⟩ := h
        subst hs
        subst hc
        exact ⟨rfl, rfl, rfl, rfl, p0, rfl⟩

/-- One iteration of the bulk loop, phrased through the per-item
success/reason functions. -/
theorem bulkStep_eq (s : Store) (st : String) (acc : BulkResult) (cid : Nat) :
    bulkStep s st acc cid =
      if bulkItemOk s st cid then { acc with success := acc.success ++ [cid] }
      else { acc with failed := acc.failed ++ [(cid, bulkItemReason s st cid)] } := by
  unfold bulkStep bulkItemOk bulkItemReason
  cases hc : findCandidate s cid with
  | none => simp
  | some c =>
    cases hp : findPosting s c.jobPostingId with
    | none => simp [hp]
    | some p =>
      by_cases hst : (st == "shortlisted" || st == "selected" || st == "rejected") = true
      · simp [hp, hst]
      · simp [hp, hst]

/-- The bulk loop fold, over an arbitrary accumulator. -/
theorem sendBulk_foldl (s : Store) (st : String) :
    ∀ (cids : List Nat) (acc : BulkResult),
      cids.foldl (bulkStep s st) acc =
        ⟨acc.success ++ cids.filter (bulkItemOk s st),
          acc.failed ++ (cids.filter (fun cid => !(bulkItemOk s st cid))).map
            (fun cid => (cid, bulkItemReason s st cid))⟩ := by
  intro cids
  induction cids with
  | nil => intro acc; simp
  | cons x xs ih =>
    intro acc
    rw [List.foldl_cons, bulkStep_eq, List.filter_cons, List.filter_cons]
    by_cases hx : bulkItemOk s st x = true
    · rw [if_pos hx, ih]
      simp [hx]
    · rw [if_neg hx, ih]
      simp only [Bool.not_eq_true] at hx
      simp [hx]

/-- Every element of `updateFirst q f l` is an element of `l` or the image
under `f` of one. -/
theorem mem_updateFirst (q : α → Bool) (f : α → α) :
    ∀ l : List α, ∀ x ∈ updateFirst q f l, x ∈ l ∨ ∃ y ∈ l, x = f y := by
  intro l
  induction l with
  | nil =>
    intro x hx
    simp [updateFirst] at hx
  | cons a as ih =>
    intro x hx
    unfold updateFirst at hx
    by_cases ha : q a = true
    · rw [if_pos ha] at hx
      rcases List.mem_cons.mp hx with hx | hx
      · exact Or.inr ⟨a, List.mem_cons_self a as, hx⟩
      · exact Or.inl (List.mem_cons_of_mem a hx)
    · rw [if_neg ha] at hx
      rcases List.mem_cons.mp hx with hx | hx
      · exact Or.inl (by simp [hx])
      · rcases ih x hx with hm | ⟨y, hy, hxy⟩
        · exact Or.inl (List.mem_cons_of_mem a hm)
        · exact Or.inr ⟨y, List.mem_cons_of_mem a hy, hxy⟩

/-- Updating the first match leaves the image of the list under `g`
unchanged when `f` preserves `g` on the found element. -/
theorem updateFirst_map (g : α → β) (q : α → Bool) (f : α → α) :
    ∀ (l : List α) (y0 : α), l.find? q = some y0 → g (f y0) = g y0 →
      (updateFirst q f l).map g = l.map g := by
  intro l
  induction l with
  | nil =>
    intro y0 h
    simp at h
  | cons a as ih =>
    intro y0 hf hg
    unfold updateFirst
    by_cases ha : q a = true
    · rw [if_pos ha]
      rw [List.find?_cons_of_pos as ha] at hf
      obtain rfl : a = y0 := by simpa using hf
      simp [hg]
    · rw [if_neg ha]
      rw [List.find?_cons_of_neg as (by simpa using ha)] at hf
      simp [ih y0 hf hg]

/-- The per-posting candidate count only depends on the posting references
of the candidate records. -/
theorem countRef_eq_of_map_eq (s1 s : Store)
    (hcands : s1.candidates.map (fun c => c.jobPostingId)
      = s.candidates.map (fun c => c.jobPostingId)) :
    ∀ i, countRef s1 i = countRef s i := by
  have key : ∀ (l : List Candidate) (i : Nat),
      (l.filter (fun c => c.jobPostingId == i)).length
        = ((l.map (fun c => c.jobPostingId)).filter (fun j => j == i)).length := by
    intro l i
    induction l with
    | nil => rfl
    | cons a as ih =>
      by_cases ha : (a.jobPostingId == i) = true <;>
        simp [List.filter_cons, ha, ih]
  intro i
  unfold countRef
  rw [key, key, hcands]

/-- The store invariant transfers to a store with the same postings,
posting counter and candidate posting references. -/
theorem storeInv_of_eq (s1 s : Store)
    (hposts : s1.jobPostings = s.jobPostings)
    (hid : s1.idJobPostings = s.idJobPostings)
    (hcands : s1.candidates.map (fun c => c.jobPostingId)
      = s.candidates.map (fun c => c.jobPostingId))
    (h : StoreInv s) : StoreInv s1 := by
  obtain ⟨hcount, hle, hpw, href⟩ := h
  have hcr := countRef_eq_of_map_eq s1 s hcands
  refine ⟨?_, ?_, ?_, ?_⟩
  · intro p hp
    rw [hposts] at hp
    rw [hcr]
    exact hcount p hp
  · intro p hp
    rw [hposts] at hp
    rw [hid]
    exact hle p hp
  · rw [hposts]
    exact hpw
  · intro c hc
    have hmem : c.jobPostingId ∈ s.candidates.map (fun c => c.jobPostingId) := by
      rw [← hcands]
      exact List.mem_map_of_mem _ hc
    obtain ⟨c0, hc0, he0⟩ := List.mem_map.mp hmem
    obtain ⟨p, hp, he⟩ := href c0 hc0
    refine ⟨p, ?_, ?_⟩
    · rw [hposts]
      exact hp
    · rw [← he0]
      exact he

/-- Bumping the (unique, by pairwise-distinct ids) posting with id `pid`
shifts the count relation pointwise: the bumped element gains one, every
other element is untouched. -/
theorem updateFirst_applicantCount (pid : Nat) (g : Nat → Nat) :
    ∀ l : List JobPosting,
      List.Pairwise (fun p q : JobPosting => p.id ≠ q.id) l →
      (∀ x ∈ l, x.applicantCount = g x.id) →
      ∀ x ∈ updateFirst (fun p => p.id == pid)
          (fun p => { p with applicantCount := p.applicantCount + 1 }) l,
        x.applicantCount = g x.id + (if x.id = pid then 1 else 0) := by
  intro l
  induction l with
  | nil =>
    intro _ _ x hx
    simp [updateFirst] at hx
  | cons a as ih =>
    intro hpw hinv x hx
    unfold updateFirst at hx
    by_cases ha : (a.id == pid) = true
    · rw [if_pos ha] at hx
      have haid : a.id = pid := by simpa using ha
      rcases List.mem_cons.mp hx with rfl | hxs
      · simp [haid, hinv a (List.mem_cons_self a as)]
      · obtain ⟨hhead, -⟩ := List.pairwise_cons.mp hpw
        have hxne : x.id ≠ pid := fun hxp => (hhead x hxs) (by rw [haid, hxp])
        rw [if_neg hxne]
        simpa using hinv x (List.mem_cons_of_mem a hxs)
    · rw [if_neg ha] at hx
      have haid : a.id ≠ pid := by simpa using ha
      rcases List.mem_cons.mp hx with hxa | hxs
      · rw [hxa, if_neg haid]
        simpa using hinv a (List.mem_cons_self a as)
      · obtain ⟨-, htail⟩ := List.pairwise_cons.mp hpw
        exact ih htail (fun y hy => hinv y (List.mem_cons_of_mem a hy)) x hxs

/-- A failing `applyForJob` returns the input store (all validations
precede all mutations). -/
theorem applyForJob_error_parts (d : ApplyData) (now : String) (s s1 : Store) (e : String)
    (h : applyForJob d now s = (s1, Except.error e)) : s1 = s := by
  unfold applyForJob at h
  split at h
  · simp only [Prod.mk.injEq] at h
    exact h.1.symm
  · split at h
    · simp only [Prod.mk.injEq] at h
      exact h.1.symm
    · split at h
      · simp only [Prod.mk.injEq] at h
        exact h.1.symm
      · simp at h

/-- The store invariant is preserved by `createJobRequirement` (it only
touches the requirement collection and counter). -/
theorem storeInv_createJobRequirement (d : ReqData) (now : String) (s : Store)
    (h : StoreInv s) : StoreInv (createJobRequirement d now s).1 := by
  unfold createJobRequirement
  split
  · exact h
  · split
    · exact h
    · split
      · exact h
      · exact h

/-- The store invariant is preserved by `approveJobRequirement`. -/
theorem storeInv_approveJobRequirement (rid aid : Nat) (now : String) (s : Store)
    (h : StoreInv s) : StoreInv (approveJobRequirement rid aid now s).1 := by
  unfold approveJobRequirement
  cases hr : findRequirement s rid with
  | none => exact h
  | some r0 => exact h

/-- The store invariant is preserved by `rejectJobRequirement`. -/
theorem storeInv_rejectJobRequirement (rid : Nat) (reason : String) (s : Store)
    (h : StoreInv s) : StoreInv (rejectJobRequirement rid reason s).1 := by
  unfold rejectJobRequirement
  cases hr : findRequirement s rid with
  | none => exact h
  | some r0 => exact h

/-- The store invariant is preserved by `updateJobPostingStatus` (it
rewrites one posting, keeping its id and applicantCount). -/
theorem storeInv_updateJobPostingStatus (pid : Nat) (st now : String) (s : Store)
    (h : StoreInv s) : StoreInv (updateJobPostingStatus pid st now s).1 := by
  unfold updateJobPostingStatus
  split
  · exact h
  · cases hp : findPosting s pid with
    | none => exact h
    | some p0 =>
      dsimp only
      obtain ⟨hcount, hle, hpw, href⟩ := h
      have hp0mem : p0 ∈ s.jobPostings := List.mem_of_find?_eq_some hp
      have hmap : (updateFirst (fun p => p.id == pid)
            (fun _ => { p0 with status := st, updatedAt := now }) s.jobPostings).map
              (fun p => p.id)
          = s.jobPostings.map (fun p => p.id) :=
        updateFirst_map (fun p => p.id) _ _ s.jobPostings p0 hp rfl
      refine ⟨?_, ?_, ?_, ?_⟩
      · intro x hx
        rcases mem_updateFirst _ _ _ x hx with hxm | ⟨y, hy, rfl⟩
        · exact hcount x hxm
        · exact hcount p0 hp0mem
      · intro x hx
        rcases mem_updateFirst _ _ _ x hx with hxm | ⟨y, hy, rfl⟩
        · exact hle x hxm
        · exact hle p0 hp0mem
      · have h1 : List.Pairwise (fun a b : Nat => a ≠ b)
            (s.jobPostings.map (fun p => p.id)) := List.pairwise_map.mpr hpw
        rw [← hmap] at h1
        exact List.pairwise_map.mp h1
      · intro c hc
        obtain ⟨p, hpm, he⟩ := href c hc
        have hpin : p.id ∈ (updateFirst (fun p => p.id == pid)
            (fun _ => { p0 with status := st, updatedAt := now }) s.jobPostings).map
              (fun p => p.id) := by
          rw [hmap]
          exact List.mem_map_of_mem _ hpm
        obtain ⟨p', hp', hid'⟩ := List.mem_map.mp hpin
        exact ⟨p', hp', by rw [he, hid']⟩

/-- The store invariant is preserved by `createJobPosting`: the appended
posting has the fresh id `counter + 1`, which no candidate can reference
yet, count 0. -/
theorem storeInv_createJobPosting (d : PostData) (now : String) (s : Store)
    (h : StoreInv s) : StoreInv (createJobPosting d now s).1 := by
  unfold createJobPosting
  cases hr : findRequirement s d.requirementId with
  | none => exact h
  | some req =>
    dsimp only
    split
    · exact h
    · split
      · exact h
      · obtain ⟨hcount, hle, hpw, href⟩ := h
        refine ⟨?_, ?_, ?_, ?_⟩
        · intro x hx
          rcases List.mem_append.mp hx with hxm | hxm
          · exact hcount x hxm
          · obtain rfl := List.mem_singleton.mp hxm
            show (0 : Nat) = countRef s (s.idJobPostings + 1)
            symm
            unfold countRef
            rw [List.length_eq_zero, List.filter_eq_nil_iff]
            intro c hc
            obtain ⟨p, hpm, he⟩ := href c hc
            have hple := hle p hpm
            simp only [beq_iff_eq, he]
            omega
        · intro x hx
          rcases List.mem_append.mp hx with hxm | hxm
          · show x.id ≤ s.idJobPostings + 1
            have := hle x hxm
            omega
          · obtain rfl := List.mem_singleton.mp hxm
            show s.idJobPostings + 1 ≤ s.idJobPostings + 1
            omega
        · rw [List.pairwise_append]
          refine ⟨hpw, List.pairwise_singleton _ _, ?_⟩
          intro a ha b hb
          obtain rfl := List.mem_singleton.mp hb
          have := hle a ha
          show a.id ≠ s.idJobPostings + 1
          omega
        · intro c hc
          obtain ⟨p, hpm, he⟩ := href c hc
          exact ⟨p, List.mem_append_left _ hpm, he⟩

/-- The store invariant is preserved by a successful or failing
`applyForJob`: a success appends one candidate referencing the resolved
posting and bumps exactly that posting. -/
theorem storeInv_applyForJob (d : ApplyData) (now : String) (s : Store)
    (h : StoreInv s) : StoreInv (applyForJob d now s).1 := by
  cases hA : applyForJob d now s with
  | mk s1 r =>
    cases r with
    | error e =>
      rw [applyForJob_error_parts d now s s1 e hA]
      exact h
    | ok c =>
      obtain ⟨hcpid, hcand, hpost, hidp, p0, hp0⟩ := applyForJob_ok_parts d now s s1 c hA
      obtain ⟨hcount, hle, hpw, href⟩ := h
      have hp0mem : p0 ∈ s.jobPostings := List.mem_of_find?_eq_some hp0
      have hp0id : p0.id = d.jobPostingId := by simpa using List.find?_some hp0
      have hmap : (updateFirst (fun p => p.id == d.jobPostingId)
            (fun p => { p with applicantCount := p.applicantCount + 1 }) s.jobPostings).map
              (fun p => p.id)
          = s.jobPostings.map (fun p => p.id) :=
        updateFirst_map (fun p => p.id) _ _ s.jobPostings p0 hp0 rfl
      have hcr : ∀ i, countRef s1 i = countRef s i + (if i = d.jobPostingId then 1 else 0) := by
        intro i
        unfold countRef
        rw [hcand, List.filter_append, List.length_append]
        congr 1
        by_cases hbi : i = d.jobPostingId
        · rw [if_pos hbi]
          simp [hcpid, hbi]
        · rw [if_neg hbi]
          simp [hcpid, Ne.symm hbi]
      refine ⟨?_, ?_, ?_, ?_⟩
      · intro x hx
        rw [hpost] at hx
        have hx2 := updateFirst_applicantCount d.jobPostingId (countRef s) s.jobPostings
          hpw hcount x hx
        rw [hcr x.id]
        exact hx2
      · intro x hx
        rw [hpost] at hx
        rcases mem_updateFirst _ _ _ x hx with hxm | ⟨y, hy, rfl⟩
        · rw [hidp]
          exact hle x hxm
        · rw [hidp]
          exact hle y hy
      · rw [hpost]
        have h1 : List.Pairwise (fun a b : Nat => a ≠ b)
            (s.jobPostings.map (fun p => p.id)) := List.pairwise_map.mpr hpw
        rw [← hmap] at h1
        exact List.pairwise_map.mp h1
      · intro c2 hc2
        rw [hcand] at hc2
        rw [hpost]
        rcases List.mem_append.mp hc2 with hcm | hcm
        · obtain ⟨p, hpm, he⟩ := href c2 hcm
          have hpin : p.id ∈ (updateFirst (fun p => p.id == d.jobPostingId)
              (fun p => { p with applicantCount := p.applicantCount + 1 }) s.jobPostings).map
                (fun p => p.id) := by
            rw [hmap]
            exact List.mem_map_of_mem _ hpm
          obtain ⟨p', hp', hid'⟩ := List.mem_map.mp hpin
          exact ⟨p', hp', by rw [he, hid']⟩
        · obtain rfl := List.mem_singleton.mp hcm
          have hpin : p0.id ∈ (updateFirst (fun p => p.id == d.jobPostingId)
              (fun p => { p with applicantCount := p.applicantCount + 1 }) s.jobPostings).map
                (fun p => p.id) := by
            rw [hmap]
            exact List.mem_map_of_mem _ hp0mem
          obtain ⟨p', hp', hid'⟩ := List.mem_map.mp hpin
          refine ⟨p', hp', ?_⟩
          rw [hcpid, hid', hp0id]

/-- The store invariant is preserved by `updateCandidateStatus` (the
rewritten candidate keeps its posting reference). -/
theorem storeInv_updateCandidateStatus (cid : Nat) (st notes now : String) (s : Store)
    (h : StoreInv s) : StoreInv (updateCandidateStatus cid st notes now s).1 := by
  unfold updateCandidateStatus
  split
  · exact h
  · cases hf : findCandidate s cid with
    | none => exact h
    | some c0 =>
      dsimp only
      refine storeInv_of_eq _ s rfl rfl ?_ h
      refine updateFirst_map (fun c => c.jobPostingId) _ _ s.candidates c0 hf ?_
      split <;> split <;> rfl

/-- The store invariant is preserved by `addInterview` (the rewritten
candidate keeps its posting reference). -/
theorem storeInv_addInterview (cid : Nat) (d : InterviewData) (uuid now : String) (s : Store)
    (h : StoreInv s) : StoreInv (addInterview cid d uuid now s).1 := by
  unfold addInterview
  split
  · exact h
  · split
    · exact h
    · cases hf : findCandidate s cid with
      | none => exact h
      | some c0 =>
        dsimp only
        refine storeInv_of_eq _ s rfl rfl ?_ h
        refine updateFirst_map (fun c => c.jobPostingId) _ _ s.candidates c0 hf ?_
        split <;> rfl

/-- The store invariant is preserved by every operation. -/
theorem storeInv_runOp (s : Store) (op : Op) (h : StoreInv s) : StoreInv (runOp s op) := by
  cases op with
  | createRequirement d now => exact storeInv_createJobRequirement d now s h
  | approveRequirement rid aid now => exact storeInv_approveJobRequirement rid aid now s h
  | rejectRequirement rid reason => exact storeInv_rejectJobRequirement rid reason s h
  | createPosting d now => exact storeInv_createJobPosting d now s h
  | updatePostingStatus pid st now => exact storeInv_updateJobPostingStatus pid st now s h
  | applyJob d now => exact storeInv_applyForJob d now s h
  | updateStatus cid st notes now => exact storeInv_updateCandidateStatus cid st notes now s h
  | interview cid d uuid now => exact storeInv_addInterview cid d uuid now s h

/-- The store invariant is preserved by every sequence of operations. -/
theorem storeInv_runOps : ∀ (ops : List Op) (s : Store), StoreInv s → StoreInv (runOps s ops) := by
  intro ops
  induction ops with
  | nil =>
    intro s h
    exact h
  | cons op ops ih =>
    intro s h
    exact ih (runOp s op) (storeInv_runOp s op h)

/-- The empty store satisfies the invariant. -/
theorem storeInv_store0 : StoreInv store0 := by
  refine ⟨?_, ?_, ?_, ?_⟩ <;> simp [store0, StoreInv]

/-! ### Claim theorems -/

/-- C10: `applyForJob` is atomic on error — on every failing input (missing
required field, unknown posting, or duplicate application) the returned
store is exactly the input store: no candidate appended, no
`applicantCount` bump, no id counter advanced, because every validation
happens before any mutation. -/
theorem applyForJob_atomic_on_error (d : ApplyData) (now : String) (s : Store) :
    ∀ e, (applyForJob d now s).2 = Except.error e → (applyForJob d now s).1 = s := by
  intro e
  unfold applyForJob
  split
  · intro _; rfl
  · split
    · intro _; rfl
    · split
      · intro _; rfl
      · intro h; simp at h

/-- Witness for C10 at a concrete failing input (missing fields on the
empty store). -/
theorem applyForJob_atomic_on_error_witness :
    (applyForJob ⟨0, "", "", none, none, none, Sum.inr [], none⟩ "t0" store0).1 = store0 :=
  applyForJob_atomic_on_error ⟨0, "", "", none, none, none, Sum.inr [], none⟩ "t0" store0
    "Failed to apply for job: Job posting ID, candidate name, and email are required" rfl

/-- Store with one candidate (id 1) referencing posting 1 and no candidate
with id 2, for the bulk-notify claims. -/
def sBulk : Store :=
  { store0 with
      jobPostings := [mkPost 1 1 1]
      candidates := [mkCand 1 1 "a@x.com" "applied" none] }

/-- C8 counterexample: on the batch `[1, 2]` with the unsupported status
`bogus`, item 1 (candidate and posting resolve) fails with the
unsupported-status reason while item 2 (no such candidate) fails with the
caught TypeError reason — every item fails, but not all with the same
reason, refuting the claim as stated. -/
theorem sendBulkStatusUpdate_counterexample :
    (sendBulkStatusUpdate sBulk [1, 2] "bogus").failed =
      [(1, "Unsupported status: bogus"), (2, jsUndefinedFieldMsg)]
    ∧ (sendBulkStatusUpdate sBulk [1, 2] "bogus").success = []
    ∧ "Unsupported status: bogus" ≠ jsUndefinedFieldMsg := by
  refine ⟨by decide, by decide, by decide⟩

/-- C8 (amended): `sendBulkStatusUpdate` partitions the input ids
item-by-item — an id succeeds iff its candidate and posting resolve and
the status is dispatchable, and fails with its per-item reason otherwise
(so a missing candidate or posting fails only that item); for an
unsupported status no item succeeds and every item whose candidate and
posting resolve fails with the one shared reason `Unsupported status: X`. -/
theorem sendBulkStatusUpdate_partition (s : Store) (cids : List Nat) (st : String) :
    (sendBulkStatusUpdate s cids st).success = cids.filter (bulkItemOk s st)
    ∧ (sendBulkStatusUpdate s cids st).failed
        = (cids.filter (fun cid => !(bulkItemOk s st cid))).map
            (fun cid => (cid, bulkItemReason s st cid))
    ∧ (st ≠ "shortlisted" → st ≠ "selected" → st ≠ "rejected" →
        cids.filter (bulkItemOk s st) = [] ∧
        ∀ cid c, findCandidate s cid = some c → (findPosting s c.jobPostingId).isSome →
          bulkItemReason s st cid = "Unsupported status: " ++ st) := by
  refine ⟨?_, ?_, ?_⟩
  · unfold sendBulkStatusUpdate
    rw [sendBulk_foldl]
    simp
  · unfold sendBulkStatusUpdate
    rw [sendBulk_foldl]
    simp
  · intro h1 h2 h3
    constructor
    · rw [List.filter_eq_nil_iff]
      intro cid _
      unfold bulkItemOk
      cases hc : findCandidate s cid with
      | none => simp
      | some c =>
        cases hp : findPosting s c.jobPostingId with
        | none => simp [hp]
        | some p => simp [hp, h1, h2, h3]
    · intro cid c hc hp
      obtain ⟨p, hp'⟩ := Option.isSome_iff_exists.mp hp
      unfold bulkItemReason
      simp [hc, hp']

/-- Witness for C8 (amended) at a concrete input: the success component
follows from the partition theorem, and the shared unsupported-status
reason is obtained for the resolving candidate 1. -/
theorem sendBulkStatusUpdate_partition_witness :
    (sendBulkStatusUpdate sBulk [1] "bogus").success = [1].filter (bulkItemOk sBulk "bogus")
    ∧ bulkItemReason sBulk "bogus" 1 = "Unsupported status: " ++ "bogus" :=
  ⟨(sendBulkStatusUpdate_partition sBulk [1] "bogus").1,
    ((sendBulkStatusUpdate_partition sBulk [1] "bogus").2.2 (by decide) (by decide)
      (by decide)).2 1 (mkCand 1 1 "a@x.com" "applied" none) (by decide) (by decide)⟩

/-- Store with two candidates, one of them selected, for the conversion
rate claim. -/
def sRate : Store :=
  { store0 with
      candidates := [mkCand 1 1 "a@x.com" "selected" none, mkCand 2 1 "b@x.com" "applied" none] }

/-- C9: the conversion rate of `getRecruitmentStats` equals the spec
formula — (selected / total) × 100 rounded to two decimal places, the
number 0 when there are no candidates — and on two candidates with one
selected it is the fixed-point string value 50.00. -/
theorem conversionRate_spec :
    (∀ s : Store, (getRecruitmentStats s).conversionRate = specConversionRate s.candidates)
    ∧ (getRecruitmentStats store0).conversionRate = ConvRate.zero
    ∧ (getRecruitmentStats sRate).conversionRate = ConvRate.fixed 50 := by
  have key : ∀ s : Store, (getRecruitmentStats s).conversionRate = specConversionRate s.candidates := by
    intro s
    cases hc : s.candidates with
    | nil => simp [getRecruitmentStats, specConversionRate, hc]
    | cons a l =>
      simp only [getRecruitmentStats, specConversionRate, hc]
      rw [if_pos (by simp), if_neg (by simp)]
      rw [div_mul_eq_mul_div]
  refine ⟨key, by rw [key]; rfl, ?_⟩
  rw [key]
  unfold specConversionRate
  rw [if_neg (by decide)]
  have h1 : (sRate.candidates.filter (fun c => c.status == "selected")).length = 1 := by decide
  have h2 : sRate.candidates.length = 2 := by decide
  rw [h1, h2]
  congr 1
  unfold jsToFixed2
  norm_num [round_eq]

/-- C1: when a candidate with the same `(jobPostingId, email)` pair already
exists, `applyForJob` (with its required fields present and the posting
resolving) fails with the duplicate-application conflict error and returns
the store unchanged — no second candidate record is created. -/
theorem applyForJob_duplicate_conflict (d : ApplyData) (now : String) (s : Store)
    (ex : Candidate)
    (hmem : ex ∈ s.candidates) (hpid : ex.jobPostingId = d.jobPostingId)
    (hem : ex.email = d.email)
    (h1 : d.jobPostingId ≠ 0) (h2 : d.candidateName ≠ "") (h3 : d.email ≠ "")
    (hp : (findPosting s d.jobPostingId).isSome = true) :
    applyForJob d now s =
      (s, Except.error "Failed to apply for job: You have already applied for this position") := by
  obtain ⟨p, hp'⟩ := Option.isSome_iff_exists.mp hp
  have hdup : (s.candidates.find?
      fun c => c.jobPostingId == d.jobPostingId && c.email == d.email).isSome = true := by
    rw [List.find?_isSome]
    exact ⟨ex, hmem, by simp [hpid, hem]⟩
  obtain ⟨c', hc'⟩ := Option.isSome_iff_exists.mp hdup
  unfold applyForJob
  simp [h1, h2, h3, hp', hc']

/-- Store with posting 1 (one prior applicant) and its candidate on file,
for the duplicate-application witness. -/
def sDup : Store :=
  { store0 with
      jobPostings := [mkPost 1 1 1]
      candidates := [mkCand 1 1 "a@x.com" "applied" none] }

/-- Second application attempt with the same posting and email as the
candidate already on file in `sDup`. -/
def dDup : ApplyData := ⟨1, "Alice", "a@x.com", none, none, none, Sum.inr [], none⟩

/-- Witness for C1 at a concrete duplicate application. -/
theorem applyForJob_duplicate_conflict_witness :
    applyForJob dDup "t1" sDup =
      (sDup, Except.error "Failed to apply for job: You have already applied for this position") :=
  applyForJob_duplicate_conflict dDup "t1" sDup (mkCand 1 1 "a@x.com" "applied" none)
    (by decide) (by decide) (by decide) (by decide) (by decide) (by decide) (by decide)

/-- Helper for the applicant-count claim: a chain of successful
`applyForJob` calls all targeting posting `pid` grows its count by exactly
the number of calls, keeping `applicantCount = number of referencing
candidate records`. -/
theorem applyMany_applicantCount (now : String) (pid : Nat) :
    ∀ (ds : List ApplyData) (s s' : Store) (p : JobPosting),
      (∀ d ∈ ds, d.jobPostingId = pid) →
      applyMany now ds s = some s' →
      findPosting s pid = some p →
      p.applicantCount = countRef s pid →
      ∃ p', findPosting s' pid = some p' ∧
        p'.applicantCount = countRef s' pid ∧
        p'.applicantCount = p.applicantCount + ds.length := by
  intro ds
  induction ds with
  | nil =>
    intro s s' p _ hm hf hc
    have hss : s = s' := by simpa [applyMany] using hm
    subst hss
    exact ⟨p, hf, hc, by simp⟩
  | cons d ds ih =>
    intro s s' p hall hm hf hc
    unfold applyMany at hm
    cases hA : applyForJob d now s with
    | mk s1 r =>
      rw [hA] at hm
      cases r with
      | error e => simp at hm
      | ok c =>
        dsimp only at hm
        obtain ⟨hcpid, hcand, hpost, -, -⟩ := applyForJob_ok_parts d now s s1 c hA
        have hdpid : d.jobPostingId = pid := hall d (List.mem_cons_self d ds)
        have hcount1 : countRef s1 pid = countRef s pid + 1 := by
          unfold countRef
          rw [hcand, List.filter_append]
          simp [hcpid, hdpid]
        have hfind1 : findPosting s1 pid
            = some { p with applicantCount := p.applicantCount + 1 } := by
          unfold findPosting
          rw [hpost, hdpid]
          rw [updateFirst_find? _ _ (fun a ha => by simpa using ha)]
          unfold findPosting at hf
          rw [hf]
          rfl
        have ihc : ({ p with applicantCount := p.applicantCount + 1 } :
            JobPosting).applicantCount = countRef s1 pid := by
          simp [hcount1, hc]
        obtain ⟨p', hf', hc', hl'⟩ :=
          ih s1 s' _ (fun x hx => hall x (List.mem_cons_of_mem d hx)) hm hfind1 ihc
        refine ⟨p', hf', hc', ?_⟩
        rw [hl']
        simp
        omega

/-- Fresh posting 1 with no applicants, for the applicant-count witness. -/
def sFresh : Store := { store0 with jobPostings := [mkPost 1 1 0] }

/-- Two applications with distinct emails against posting 1. -/
def dsTwo : List ApplyData :=
  [⟨1, "Alice", "a@x.com", none, none, none, Sum.inr [], none⟩,
   ⟨1, "Bob", "b@x.com", none, none, none, Sum.inr [], none⟩]

/-- The store after the two successful applications of `dsTwo`. -/
def sFresh2 : Store := (applyMany "t1" dsTwo sFresh).getD store0

/-- C2: (1) after every sequence of recruitment operations starting from
the initial store, the applicantCount of every posting record equals the
number of candidate records referencing it; (2) every successful
`applyForJob` appends exactly its candidate and bumps the count of the
referenced posting by one in the same returned store; (3) after N
successful `apply` calls (distinct emails, or they would not all succeed)
against one posting whose count matches its references, the count has
grown by exactly N. -/
theorem applyForJob_applicantCount :
    (∀ ops : List Op, ∀ p ∈ (runOps store0 ops).jobPostings,
        p.applicantCount = countRef (runOps store0 ops) p.id)
    ∧ (∀ (d : ApplyData) (now : String) (s s' : Store) (c : Candidate),
        applyForJob d now s = (s', Except.ok c) →
        c.jobPostingId = d.jobPostingId ∧
        s'.candidates = s.candidates ++ [c] ∧
        countRef s' d.jobPostingId = countRef s d.jobPostingId + 1 ∧
        ∀ p, findPosting s d.jobPostingId = some p →
          findPosting s' d.jobPostingId
            = some { p with applicantCount := p.applicantCount + 1 })
    ∧ (∀ (ds : List ApplyData) (now : String) (pid : Nat) (s s' : Store) (p : JobPosting),
        (∀ d ∈ ds, d.jobPostingId = pid) →
        applyMany now ds s = some s' →
        findPosting s pid = some p →
        p.applicantCount = countRef s pid →
        ∃ p', findPosting s' pid = some p' ∧
          p'.applicantCount = countRef s' pid ∧
          p'.applicantCount = p.applicantCount + ds.length) := by
  refine ⟨?_, ?_, ?_⟩
  · intro ops p hp
    exact (storeInv_runOps ops store0 storeInv_store0).1 p hp
  · intro d now s s' c hA
    obtain ⟨hcpid, hcand, hpost, -, -⟩ := applyForJob_ok_parts d now s s' c hA
    refine ⟨hcpid, hcand, ?_, ?_⟩
    · unfold countRef
      rw [hcand, List.filter_append, List.length_append]
      simp [hcpid]
    · intro p hp
      unfold findPosting
      rw [hpost]
      rw [updateFirst_find? _ _ (fun a ha => by simpa using ha)]
      unfold findPosting at hp
      rw [hp]
      rfl
  · intro ds now pid s s' p h1 h2 h3 h4
    exact applyMany_applicantCount now pid ds s s' p h1 h2 h3 h4

/-- A sequence exercising every kind of operation: create and approve a
requirement, post it, take two applications, shortlist the first
candidate and record an interview. -/
def opsW : List Op :=
  [Op.createRequirement ⟨"T", "Eng", 100, none, some 1, none⟩ "t0",
   Op.approveRequirement 1 9 "t0",
   Op.createPosting ⟨1, "T", "D", "L", none, none, none⟩ "t0",
   Op.applyJob ⟨1, "Alice", "a@x.com", none, none, none, Sum.inr [], none⟩ "t1",
   Op.applyJob ⟨1, "Bob", "b@x.com", none, none, none, Sum.inr [], none⟩ "t1",
   Op.updateStatus 1 "shortlisted" "" "t2",
   Op.interview 1 ⟨"2025-01-02", "Kim", some 4, none⟩ "u9" "t3"]

/-- The posting on file after running `opsW`: two applicants recorded. -/
def pW : JobPosting := ⟨1, 1, "T", "D", "Eng", "L", none, "open", none, none, "t0", "t0", 2⟩

/-- The first application of `opsW`, taken alone. -/
def dA : ApplyData := ⟨1, "Alice", "a@x.com", none, none, none, Sum.inr [], none⟩

/-- The candidate record created by applying `dA` against `sFresh`. -/
def cA : Candidate :=
  ⟨1, 1, "Alice", "a@x.com", none, none, none, [], none, "applied", "t1", [], [], [], none, none⟩

/-- The store after that single application. -/
def sA1 : Store := (applyForJob dA "t1" sFresh).1

/-- Witness for C2: the invariant read off a concrete full run of `opsW`;
a concrete single application bumping the reference count by one; and the
2-application run leaving `applicantCount = 0 + 2`. -/
theorem applyForJob_applicantCount_witness :
    pW.applicantCount = countRef (runOps store0 opsW) pW.id
    ∧ countRef sA1 1 = countRef sFresh 1 + 1
    ∧ ∃ p', findPosting sFresh2 1 = some p' ∧
        p'.applicantCount = countRef sFresh2 1 ∧
        p'.applicantCount = (mkPost 1 1 0).applicantCount + dsTwo.length :=
  ⟨applyForJob_applicantCount.1 opsW pW (by decide),
   (applyForJob_applicantCount.2.1 dA "t1" sFresh sA1 cA rfl).2.2.1,
   applyForJob_applicantCount.2.2 dsTwo "t1" 1 sFresh sFresh2 (mkPost 1 1 0)
     (by decide) (by decide) (by decide) (by decide)⟩

/-- C3: a successful `addInterview` sets the candidate status to
interviewed exactly when the prior status was shortlisted, leaves any
other status unchanged, and in every case appends the interview record to
the stored candidate. -/
theorem addInterview_status_transition (cid : Nat) (d : InterviewData) (uuid now : String)
    (s s' : Store) (c0 c' : Candidate)
    (h0 : findCandidate s cid = some c0)
    (h : addInterview cid d uuid now s = (s', Except.ok c')) :
    c'.status = (if c0.status = "shortlisted" then "interviewed" else c0.status)
    ∧ c'.interviews = c0.interviews ++
        [⟨uuid, d.date, d.interviewer, jsRatingOrZero d.rating, d.feedback, now⟩]
    ∧ findCandidate s' cid = some c' := by
  unfold addInterview at h
  split at h
  · simp at h
  · split at h
    · simp at h
    · rw [h0] at h
      dsimp only at h
      simp only [Prod.mk.injEq, Except.ok.injEq] at h
      obtain ⟨hs, hc⟩ := h
      subst hs
      subst hc
      have hq0 : (c0.id == cid) = true := by
        unfold findCandidate at h0
        simpa using List.find?_some h0
      refine ⟨?_, ?_, ?_⟩
      · by_cases hst : c0.status = "shortlisted" <;> simp [hst]
      · by_cases hst : c0.status = "shortlisted" <;> simp [hst]
      · unfold findCandidate
        rw [updateFirst_find? _ _ (fun a _ => by
          by_cases hst : c0.status = "shortlisted" <;> simp [hst, hq0])]
        unfold findCandidate at h0
        rw [h0]
        rfl

/-- Store with one shortlisted candidate, for the interview-transition
witness. -/
def sShort : Store := { store0 with candidates := [mkCand 1 1 "a@x.com" "shortlisted" none] }

/-- The candidate stored after adding an interview in `sShort`: advanced to
interviewed, with the interview appended. -/
def cShortAfter : Candidate :=
  { mkCand 1 1 "a@x.com" "shortlisted" none with
      status := "interviewed"
      interviews := [⟨"u1", "2025-01-01", "Ivy", 0, none, "t1"⟩] }

/-- The store after adding that interview. -/
def sShortAfter : Store :=
  (addInterview 1 ⟨"2025-01-01", "Ivy", none, none⟩ "u1" "t1" sShort).1

/-- Witness for C3 at a concrete shortlisted candidate. -/
theorem addInterview_status_transition_witness :
    cShortAfter.status =
      (if (mkCand 1 1 "a@x.com" "shortlisted" none).status = "shortlisted" then "interviewed"
        else (mkCand 1 1 "a@x.com" "shortlisted" none).status)
    ∧ cShortAfter.interviews = (mkCand 1 1 "a@x.com" "shortlisted" none).interviews ++
        [⟨"u1", "2025-01-01", "Ivy", jsRatingOrZero none, none, "t1"⟩]
    ∧ findCandidate sShortAfter 1 = some cShortAfter :=
  addInterview_status_transition 1 ⟨"2025-01-01", "Ivy", none, none⟩ "u1" "t1"
    sShort sShortAfter (mkCand 1 1 "a@x.com" "shortlisted" none) cShortAfter
    (by decide) rfl

/-- Store with one already-rejected candidate whose rejection reason is on
file, for the rejection-reason counterexample. -/
def sRej : Store :=
  { store0 with candidates := [mkCand 1 1 "a@x.com" "rejected" (some "no fit")] }

/-- C4 counterexample: the candidate already has rejectionReason set; a
second rejection explicitly supplying the non-empty reason
`other reason` leaves the stored reason untouched, refuting the claim
that an explicitly supplied reason replaces it. -/
theorem updateCandidateStatus_no_overwrite_counterexample :
    ((updateCandidateStatus 1 "rejected" "other reason" "t2" sRej).2.toOption.map
      (fun c => c.rejectionReason)) = some (some "no fit")
    ∧ ("no fit" : String) ≠ "other reason" :=
  ⟨by decide, by decide⟩

/-- C4 (amended): a successful rejection sets rejectionReason on the first
rejection only — to the notes, or the `No reason provided` placeholder when
notes is empty — and a candidate whose rejectionReason is already truthy
keeps it unchanged on later rejections, even when a non-empty reason is
explicitly supplied. -/
theorem updateCandidateStatus_rejectionReason (cid : Nat) (notes now : String)
    (s s' : Store) (c0 c' : Candidate)
    (h0 : findCandidate s cid = some c0)
    (h : updateCandidateStatus cid "rejected" notes now s = (s', Except.ok c')) :
    c'.rejectionReason =
      (if optStrTruthy c0.rejectionReason then c0.rejectionReason
        else some (if notes = "" then "No reason provided" else notes)) := by
  unfold updateCandidateStatus at h
  rw [if_neg (by decide)] at h
  rw [h0] at h
  dsimp only at h
  simp only [Prod.mk.injEq, Except.ok.injEq] at h
  obtain ⟨hs, hc⟩ := h
  subst hs
  subst hc
  by_cases hrr : optStrTruthy c0.rejectionReason = true
  · by_cases hn : notes = "" <;> simp [hrr, hn]
  · simp only [Bool.not_eq_true] at hrr
    by_cases hn : notes = "" <;> simp [hrr, hn]

/-- Store with one applied candidate and no rejection reason, for the
first-rejection witness. -/
def sApplied : Store := { store0 with candidates := [mkCand 1 1 "a@x.com" "applied" none] }

/-- The candidate stored after the first rejection with notes `no fit`. -/
def cRejAfter : Candidate :=
  { mkCand 1 1 "a@x.com" "applied" none with
      status := "rejected"
      updatedAt := some "t2"
      notes := [⟨"no fit", "t2"⟩]
      rejectionReason := some "no fit" }

/-- The store after that first rejection. -/
def sRejAfter : Store := (updateCandidateStatus 1 "rejected" "no fit" "t2" sApplied).1

/-- Witness for C4 (amended) at a concrete first rejection. -/
theorem updateCandidateStatus_rejectionReason_witness :
    cRejAfter.rejectionReason =
      (if optStrTruthy (mkCand 1 1 "a@x.com" "applied" none).rejectionReason then
          (mkCand 1 1 "a@x.com" "applied" none).rejectionReason
        else some (if ("no fit" : String) = "" then "No reason provided" else "no fit")) :=
  updateCandidateStatus_rejectionReason 1 "no fit" "t2" sApplied sRejAfter
    (mkCand 1 1 "a@x.com" "applied" none) cRejAfter (by decide) rfl

/-- C5: `createJobPosting` succeeds exactly when the referenced requirement
exists with status approved and title, description and location are all
present, and on success the posting has status open, applicantCount 0 and
the department inherited from the requirement; in particular it fails for
every requirement whose status is not approved. -/
theorem createJobPosting_spec (d : PostData) (now : String) (s : Store) :
    ((∃ s' p, createJobPosting d now s = (s', Except.ok p)) ↔
      ((∃ r, findRequirement s d.requirementId = some r ∧ r.status = "approved")
        ∧ d.title ≠ "" ∧ d.description ≠ "" ∧ d.location ≠ ""))
    ∧ (∀ s' p, createJobPosting d now s = (s', Except.ok p) →
        p.status = "open" ∧ p.applicantCount = 0 ∧
        ∃ r, findRequirement s d.requirementId = some r ∧ p.department = r.department) := by
  unfold createJobPosting
  cases hr : findRequirement s d.requirementId with
  | none =>
    refine ⟨⟨?_, ?_⟩, ?_⟩
    · rintro ⟨s', p, h⟩
      simp at h
    · rintro ⟨⟨r, hr', _⟩, _⟩
      simp at hr'
    · intro s' p h
      simp at h
  | some req =>
    dsimp only
    by_cases hst : req.status = "approved"
    · rw [if_neg (by simp [hst])]
      by_cases hf : d.title = "" ∨ d.description = "" ∨ d.location = ""
      · rw [if_pos hf]
        refine ⟨⟨?_, ?_⟩, ?_⟩
        · rintro ⟨s', p, h⟩
          simp at h
        · rintro ⟨-, ht, hd2, hl⟩
          rcases hf with h | h | h <;> simp_all
        · intro s' p h
          simp at h
      · rw [if_neg hf]
        push_neg at hf
        obtain ⟨ht, hd2, hl⟩ := hf
        refine ⟨⟨?_, ?_⟩, ?_⟩
        · intro _
          exact ⟨⟨req, rfl, hst⟩, ht, hd2, hl⟩
        · intro _
          exact ⟨_, _, rfl⟩
        · intro s' p h
          simp only [Prod.mk.injEq, Except.ok.injEq] at h
          obtain ⟨hs, hp⟩ := h
          subst hs
          subst hp
          exact ⟨rfl, rfl, req, rfl, rfl⟩
    · rw [if_pos (by simp [hst])]
      refine ⟨⟨?_, ?_⟩, ?_⟩
      · rintro ⟨s', p, h⟩
        simp at h
      · rintro ⟨⟨r, hr', hra⟩, -⟩
        obtain rfl : req = r := by simpa using hr'
        exact absurd hra hst
      · intro s' p h
        simp at h

/-- Store with one approved requirement, for the posting-creation witness. -/
def sApproved : Store := { store0 with jobRequirements := [mkReq 1 "approved"] }

/-- The posting-creation input referencing the approved requirement. -/
def dPost : PostData := ⟨1, "T", "D", "L", none, none, none⟩

/-- The posting built from `dPost` against `sApproved`. -/
def pPostRes : JobPosting := ⟨1, 1, "T", "D", "Eng", "L", none, "open", none, none, "t0", "t0", 0⟩

/-- The store after that posting creation. -/
def sPostRes : Store := (createJobPosting dPost "t0" sApproved).1

/-- Witness for C5 at a concrete approved requirement. -/
theorem createJobPosting_spec_witness :
    pPostRes.status = "open" ∧ pPostRes.applicantCount = 0 ∧
      ∃ r, findRequirement sApproved 1 = some r ∧ pPostRes.department = r.department :=
  (createJobPosting_spec dPost "t0" sApproved).2 sPostRes pPostRes rfl

/-- Store with one applied candidate, for the rating claims. -/
def sApplied6 : Store := { store0 with candidates := [mkCand 2 1 "b@x.com" "applied" none] }

/-- C6 counterexample: an explicit rating of 0 is accepted — the JS check
`rating && (rating < 1 || rating > 5)` is skipped for the falsy value 0 —
and the interview is stored with rating 0, refuting the claim that every
explicit rating outside [1,5] is rejected. -/
theorem addInterview_rating_zero_counterexample :
    ((addInterview 2 ⟨"2025-01-01", "Ivy", some 0, none⟩ "u1" "t1" sApplied6).2.toOption.map
      (fun c => c.interviews.map (fun i => i.rating))) = some [0] := by
  decide

/-- C6 (amended): with date and interviewer present, `addInterview` fails
with the rating ValidationError exactly when an explicit nonzero rating
lies outside [1,5]; otherwise (given the candidate exists) it succeeds and
stores the interview with rating `rating || 0` — so an omitted rating and
an explicit rating 0 are both accepted and stored as 0. -/
theorem addInterview_rating_spec (cid : Nat) (d : InterviewData) (uuid now : String)
    (s : Store) (hd : d.date ≠ "") (hi : d.interviewer ≠ "") :
    ((addInterview cid d uuid now s).2
        = Except.error "Failed to add interview: Rating must be between 1 and 5"
      ↔ ∃ r, d.rating = some r ∧ r ≠ 0 ∧ (r < 1 ∨ 5 < r))
    ∧ (∀ c0, findCandidate s cid = some c0 → ratingInvalid d.rating = false →
        ∃ s' c', addInterview cid d uuid now s = (s', Except.ok c') ∧
          c'.interviews = c0.interviews ++
            [⟨uuid, d.date, d.interviewer, jsRatingOrZero d.rating, d.feedback, now⟩])
    ∧ jsRatingOrZero none = 0 ∧ jsRatingOrZero (some 0) = 0
    ∧ ratingInvalid (some 0) = false ∧ ratingInvalid none = false := by
  have hchar : ratingInvalid d.rating = true
      ↔ ∃ r, d.rating = some r ∧ r ≠ 0 ∧ (r < 1 ∨ 5 < r) := by
    cases hr : d.rating with
    | none => simp [ratingInvalid]
    | some r => simp [ratingInvalid]
  refine ⟨?_, ?_, rfl, rfl, rfl, rfl⟩
  · unfold addInterview
    rw [if_neg (by simp [hd, hi])]
    by_cases hri : ratingInvalid d.rating = true
    · rw [if_pos hri]
      simpa using hchar.mp hri
    · rw [if_neg hri]
      have hfalse : ¬ ∃ r, d.rating = some r ∧ r ≠ 0 ∧ (r < 1 ∨ 5 < r) :=
        fun hx => hri (hchar.mpr hx)
      cases hc : findCandidate s cid with
      | none =>
        simp only [iff_false_intro hfalse, iff_false]
        intro h
        simp at h
      | some c0 =>
        dsimp only
        simp only [iff_false_intro hfalse, iff_false]
        intro h
        simp at h
  · intro c0 h0 hri
    unfold addInterview
    rw [if_neg (by simp [hd, hi]), if_neg (by simp [hri])]
    rw [h0]
    dsimp only
    refine ⟨_, _, rfl, ?_⟩
    by_cases hst : c0.status = "shortlisted" <;> simp [hst]

/-- Witness for C6 (amended): a valid explicit rating 3 succeeds and the
interview is appended with that rating. -/
theorem addInterview_rating_spec_witness :
    ∃ s' c', addInterview 2 ⟨"2025-01-01", "Ivy", some 3, none⟩ "u1" "t1" sApplied6
        = (s', Except.ok c') ∧
      c'.interviews = (mkCand 2 1 "b@x.com" "applied" none).interviews ++
        [⟨"u1", "2025-01-01", "Ivy", jsRatingOrZero (some 3), none, "t1"⟩] :=
  (addInterview_rating_spec 2 ⟨"2025-01-01", "Ivy", some 3, none⟩ "u1" "t1" sApplied6
      (by decide) (by decide)).2.1 (mkCand 2 1 "b@x.com" "applied" none) (by decide) (by decide)

/-- C7 counterexample: the input with title and department present,
budget = 0 and positions = 1 satisfies the claim's success condition
(budget ≥ 0 and positions ≥ 1), yet `createJobRequirement` rejects it —
JS `!budget` treats the present value 0 as missing. -/
theorem createJobRequirement_budget_zero_counterexample :
    createJobRequirement ⟨"T", "Eng", 0, none, some 1, none⟩ "t0" store0
      = (store0,
          Except.error "Failed to create job requirement: Title, department, and budget are required")
    ∧ (0 : Int) ≥ 0 ∧ ((some 1 : Option Int).getD 1) ≥ 1 :=
  ⟨rfl, by decide, by decide⟩

/-- C7 (amended): `createJobRequirement` succeeds exactly when title and
department are present, budget is strictly positive (a present budget of 0
is rejected as missing by the falsy check), and positions ≥ 1; on success
the record has status pending and a fresh id `counter + 1`, strictly
greater than every previously issued id (any id ≤ the stored counter). -/
theorem createJobRequirement_spec (d : ReqData) (now : String) (s : Store) :
    ((createJobRequirement d now s).2.isOk = true ↔
      (d.title ≠ "" ∧ d.department ≠ "" ∧ 0 < d.budget ∧ 1 ≤ d.positions.getD 1))
    ∧ (∀ s' r, createJobRequirement d now s = (s', Except.ok r) →
        r.status = "pending" ∧ r.id = s.idJobRequirements + 1 ∧
        s'.idJobRequirements = r.id ∧
        ∀ q ∈ s.jobRequirements, q.id ≤ s.idJobRequirements → q.id < r.id) := by
  unfold createJobRequirement
  by_cases h1 : d.title = "" ∨ d.department = "" ∨ d.budget = 0
  · rw [if_pos h1]
    refine ⟨⟨?_, ?_⟩, ?_⟩
    · intro h
      simp [Except.isOk, Except.toBool] at h
    · rintro ⟨ht, hdp, hb, -⟩
      rcases h1 with h | h | h
      exacts [absurd h ht, absurd h hdp, by omega]
    · intro s' r h
      simp at h
  · rw [if_neg h1]
    push_neg at h1
    obtain ⟨ht, hdp, hb0⟩ := h1
    by_cases h2 : d.budget < 0
    · rw [if_pos h2]
      refine ⟨⟨?_, ?_⟩, ?_⟩
      · intro h
        simp [Except.isOk, Except.toBool] at h
      · rintro ⟨-, -, hb, -⟩
        omega
      · intro s' r h
        simp at h
    · rw [if_neg h2]
      by_cases h3 : d.positions.getD 1 < 1
      · rw [if_pos h3]
        refine ⟨⟨?_, ?_⟩, ?_⟩
        · intro h
          simp [Except.isOk, Except.toBool] at h
        · rintro ⟨-, -, -, hp⟩
          omega
        · intro s' r h
          simp at h
      · rw [if_neg h3]
        refine ⟨⟨?_, ?_⟩, ?_⟩
        · intro _
          exact ⟨ht, hdp, by omega, by omega⟩
        · intro _
          rfl
        · intro s' r h
          simp only [Prod.mk.injEq, Except.ok.injEq] at h
          obtain ⟨hs, hr⟩ := h
          subst hs
          subst hr
          refine ⟨rfl, rfl, rfl, ?_⟩
          intro q _ hle
          change q.id < s.idJobRequirements + 1
          omega

/-- The requirement created by the witness input. -/
def rReqRes : JobRequirement :=
  ⟨1, "T", "Eng", 100, none, 1, "pending", none, "t0", none, none, 0, none⟩

/-- The store after creating that requirement on the empty store. -/
def sReqRes : Store := (createJobRequirement ⟨"T", "Eng", 100, none, some 1, none⟩ "t0" store0).1

/-- Witness for C7 (amended) at a concrete valid input on the empty store. -/
theorem createJobRequirement_spec_witness :
    rReqRes.status = "pending" ∧ rReqRes.id = store0.idJobRequirements + 1 ∧
      sReqRes.idJobRequirements = rReqRes.id ∧
      ∀ q ∈ store0.jobRequirements, q.id ≤ store0.idJobRequirements → q.id < rReqRes.id :=
  (createJobRequirement_spec ⟨"T", "Eng", 100, none, some 1, none⟩ "t0" store0).2
    sReqRes rReqRes rfl

end HRMS
